import Mathlib

/-!
# Client-side dialling of `websocket/client.go`

A shallow embedding of `src/websocket/client.go`: the authority resolver
`parseAuthority`, the constructor `NewConfig`, the two dial entry points
`DialConfigRaw` and `DialConfig`, and the rendering of `DialError`.

Go strings are modelled by Lean strings.  The standard-library helpers search
for the ASCII bytes `:`, `[` and `]` only, and an ASCII byte never occurs inside
a multi-byte UTF-8 sequence, so searching characters and searching bytes agree.
-/

set_option linter.dupNamespace false

namespace Websocket

/-! ## Standard library: `net.SplitHostPort` and `net.JoinHostPort` -/

/-- Index of the first occurrence of `c` in `s`, or `-1` (Go `bytealg.IndexByteString`). -/
def IndexByteString : List Char → Char → Int
  | [], _ => -1
  | x :: xs, c =>
    if x = c then 0
    else
      let r := IndexByteString xs c
      if r < 0 then -1 else r + 1

/-- Index of the last occurrence of `c` in `s`, or `-1` (Go `bytealg.LastIndexByteString`). -/
def LastIndexByteString : List Char → Char → Int
  | [], _ => -1
  | x :: xs, c =>
    let r := LastIndexByteString xs c
    if r < 0 then (if x = c then 0 else -1) else r + 1

/-- The Go slice expression `s[lo:hi]`. -/
def slice (s : List Char) (lo hi : Int) : List Char :=
  (s.take hi.toNat).drop lo.toNat

/-- The Go slice expression `s[lo:]`. -/
def sliceFrom (s : List Char) (lo : Int) : List Char :=
  s.drop lo.toNat

/-- The error value `*net.AddrError`. -/
structure AddrError where
  Err : String
  Addr : String
deriving DecidableEq, Repr

def missingPort : String := "missing port in address"

def tooManyColons : String := "too many colons in address"

/-- The closure `addrErr` of `net.SplitHostPort`. -/
def addrErr (addr why : String) : Except AddrError (String × String) :=
  .error ⟨why, addr⟩

/-- The tail of `net.SplitHostPort`, after `host`, `j` and `k` are fixed: no
further `[` from `j` on, no further `]` from `k` on, and the port is what
follows the last colon, at `i`. -/
def splitHostPortTail (hostport : String) (host : List Char) (j k i : Int) :
    Except AddrError (String × String) :=
  if IndexByteString (sliceFrom hostport.data j) '[' ≥ 0 then
    addrErr hostport "unexpected '[' in address"
  else if IndexByteString (sliceFrom hostport.data k) ']' ≥ 0 then
    addrErr hostport "unexpected ']' in address"
  else
    .ok (String.mk host, String.mk (sliceFrom hostport.data (i + 1)))

/-- The function `net.SplitHostPort` of the Go standard library. -/
def SplitHostPort (hostport : String) : Except AddrError (String × String) :=
  let s := hostport.data
  -- The port starts after the last colon.
  let i := LastIndexByteString s ':'
  if i < 0 then addrErr hostport missingPort
  else if s.head? = some '[' then
    -- Expect the first ']' just before the last ':'.
    let end_ := IndexByteString s ']'
    if end_ < 0 then addrErr hostport "missing ']' in address"
    else if end_ + 1 = (s.length : Int) then
      -- There can't be a ':' behind the ']' now.
      addrErr hostport missingPort
    else if end_ + 1 = i then
      -- The expected result.
      splitHostPortTail hostport (slice s 1 end_) 1 (end_ + 1) i
    else if s.get? (end_ + 1).toNat = some ':' then
      addrErr hostport tooManyColons
    else addrErr hostport missingPort
  else
    let host := slice s 0 i
    if IndexByteString host ':' ≥ 0 then addrErr hostport tooManyColons
    else splitHostPortTail hostport host 0 0 i

/-- The function `net.JoinHostPort` of the Go standard library: a host that
contains a colon is taken for a literal IPv6 address and bracketed, whether or
not it is bracketed already. -/
def JoinHostPort (host port : String) : String :=
  if IndexByteString host.data ':' ≥ 0 then
    "[" ++ host ++ "]:" ++ port
  else
    host ++ ":" ++ port

/-! ## `net/url` -/

/-- The fields of `url.URL` that `client.go` reads, and the rest of the parsed
reference kept as written. -/
structure URL where
  Scheme : String
  Host : String
  Path : String
  RawQuery : String
deriving DecidableEq, Repr

/-! ## `client.go` -/

/-- The package variable `portMap`, a lookup from scheme to default port. -/
def portMap (scheme : String) : Option String :=
  if scheme = "ws" then some "80"
  else if scheme = "wss" then some "443"
  else none

/-- The function `parseAuthority`. -/
def parseAuthority (location : URL) : String :=
  match portMap location.Scheme with
  | some port =>
    match SplitHostPort location.Host with
    | .error _ => JoinHostPort location.Host port
    | .ok _ => location.Host
  | none => location.Host

/-- The standard-library type `net.Dialer`; `client.go` only passes it on. -/
structure Dialer where
  Timeout : Int
  KeepAlive : Int
deriving DecidableEq, Repr

/-- The value `&net.Dialer{}`: a dialer with no option set. -/
def Dialer.zero : Dialer := ⟨0, 0⟩

/-- A transport connection, the standard-library interface `net.Conn`, named
by its descriptor. -/
structure NetConn where
  fd : Nat
deriving DecidableEq, Repr

/-- The result of `bufio.NewReader(conn)`: a buffered reader over `rd`. -/
structure Reader where
  rd : Option NetConn
deriving DecidableEq, Repr

/-- The result of `bufio.NewWriter(conn)`: a buffered writer over `wr`. -/
structure Writer where
  wr : Option NetConn
deriving DecidableEq, Repr

/-- The standard-library type `bufio.ReadWriter`. -/
structure ReadWriter where
  Reader : Reader
  Writer : Writer
deriving DecidableEq, Repr

def NewReader (conn : Option NetConn) : Reader := ⟨conn⟩

def NewWriter (conn : Option NetConn) : Writer := ⟨conn⟩

def NewReadWriter (r : Reader) (w : Writer) : ReadWriter := ⟨r, w⟩

/-- The standard-library type `http.Header`, a map from a name to its values. -/
abbrev Header := List (String × List String)

/-- Modelled from the spec: the declaration of `Config` is outside `client.go`;
these are the fields of the data model that `client.go` reads and writes.  A
pointer field is an `Option`, `none` being `nil`; `Header` is `none` for the nil
map and `some []` for the empty one. -/
structure Config where
  Location : Option URL
  Origin : Option URL
  Protocol : List String
  Version : Int
  Header : Option Header
  Dialer : Option Dialer
deriving DecidableEq, Repr

/-- The value `new(Config)`: every field at its zero value. -/
def Config.new : Config := ⟨none, none, [], 0, none, none⟩

/-- A value of the interface `error`.  `external` is an error made outside
`client.go` (by the parser, the dialer, the handshake, or a package variable)
with the text its `Error` method returns; `DialError` is the struct of
`client.go`, whose embedded `*Config` and whose `Err` are taken non-nil, as
`client.go` builds it. -/
inductive Error where
  | external (text : String)
  | DialError (config : Config) (Err : Error)
deriving DecidableEq, Repr

/-- A run-time panic. -/
inductive Panic where
  | nilDereference
deriving DecidableEq, Repr

/-- Modelled from the spec: the connection object of the Connection Factory,
declared outside `client.go`; it holds the transport, the buffers and the
configuration it was wired from. -/
structure Conn where
  config : Config
  buf : Option ReadWriter
  rwc : Option NetConn
deriving DecidableEq, Repr

/-- What `client.go` uses and does not declare: the package constants and
variables, the standard-library URL parser and printer, and the two
collaborators of the dial.  `ParseRequestURI` returns either a URL and a nil
error or a nil URL and an error, as `url.ParseRequestURI` does.
`dialWithDialer` returns the pair `(conn, err)` as is. -/
structure Collaborators where
  ProtocolVersionHybi13 : Int
  ErrBadWebSocketLocation : Error
  ErrBadWebSocketOrigin : Error
  ParseRequestURI : String → Except Error URL
  URLString : URL → String
  dialWithDialer : Dialer → Config → Option NetConn × Option Error
  hybiClientHandshake : Config → Reader → Writer → Option Error

/-- A call made to a collaborator, recorded in the order of the calls. -/
inductive Call where
  | ParseRequestURI (rawurl : String)
  | dialWithDialer (dialer : Dialer) (config : Config)
  | hybiClientHandshake (config : Config) (br : Reader) (bw : Writer)
deriving DecidableEq, Repr

/-- The method `(*url.URL).String` on a possibly nil receiver: it reads the
fields of the receiver, so a nil receiver is a nil dereference. -/
def URL.String (W : Collaborators) : Option URL → Except Panic String
  | none => .error .nilDereference
  | some u => .ok (W.URLString u)

/-- The method `Error` of an `error` value; for a `DialError` it is the method
of `client.go`, its operands evaluated from left to right. -/
def Error.Error (W : Collaborators) : Error → Except Panic String
  | .external text => .ok text
  | .DialError config Err =>
    match URL.String W config.Location with
    | .error p => .error p
    | .ok location =>
      match Error.Error W Err with
      | .error p => .error p
      | .ok cause => .ok ("websocket.Dial " ++ location ++ ": " ++ cause)

/-- What `NewConfig` returns, and the calls it made. -/
structure NewConfigResult where
  config : Config
  err : Option Error
  calls : List Call
deriving DecidableEq, Repr

/-- The function `NewConfig`. -/
def NewConfig (W : Collaborators) (server origin : String) : NewConfigResult :=
  let config : Config := { Config.new with Version := W.ProtocolVersionHybi13 }
  match W.ParseRequestURI server with
  | .error err =>
    ⟨{ config with Location := none }, some err, [.ParseRequestURI server]⟩
  | .ok location =>
    let config : Config := { config with Location := some location }
    match W.ParseRequestURI origin with
    | .error err =>
      ⟨{ config with Origin := none }, some err,
        [.ParseRequestURI server, .ParseRequestURI origin]⟩
    | .ok org =>
      let config : Config := { config with Origin := some org }
      ⟨{ config with Header := some [] }, none,
        [.ParseRequestURI server, .ParseRequestURI origin]⟩

/-- The function `ClientHandshake`. -/
def ClientHandshake (W : Collaborators) (config : Config) (rw : ReadWriter) : Option Error :=
  W.hybiClientHandshake config rw.Reader rw.Writer

/-- Modelled from the spec: `newHybiClientConn` is declared outside
`client.go`; the Connection Factory does no I/O and only wires the connection
object from its three inputs. -/
def newHybiClientConn (config : Config) (buf : Option ReadWriter) (rwc : Option NetConn) :
    Conn :=
  ⟨config, buf, rwc⟩

/-- The function `NewClientConn`. -/
def NewClientConn (rwc : Option NetConn) (buf : Option ReadWriter) (c : Config) : Conn :=
  newHybiClientConn c buf rwc

/-- What `DialConfigRaw` returns, and the calls it made. -/
structure RawResult where
  conn : Option NetConn
  rw : Option ReadWriter
  err : Option Error
  calls : List Call
deriving DecidableEq, Repr

/-- The dialer `DialConfigRaw` selects: the one of the config, or the default. -/
def selectDialer (config : Config) : Dialer :=
  match config.Dialer with
  | some dialer => dialer
  | none => Dialer.zero

/-- The function `DialConfigRaw`. -/
def DialConfigRaw (W : Collaborators) (config : Config) : RawResult :=
  match config.Location with
  | none => ⟨none, none, some (.DialError config W.ErrBadWebSocketLocation), []⟩
  | some _ =>
    match config.Origin with
    | none => ⟨none, none, some (.DialError config W.ErrBadWebSocketOrigin), []⟩
    | some _ =>
      let dialer := selectDialer config
      match W.dialWithDialer dialer config with
      | (_, some err) => ⟨none, none, some err, [.dialWithDialer dialer config]⟩
      | (conn, none) =>
        let br := NewReader conn
        let bw := NewWriter conn
        match W.hybiClientHandshake config br bw with
        | some err =>
          ⟨none, none, some err,
            [.dialWithDialer dialer config, .hybiClientHandshake config br bw]⟩
        | none =>
          ⟨conn, some (NewReadWriter br bw), none,
            [.dialWithDialer dialer config, .hybiClientHandshake config br bw]⟩

/-- What `DialConfig` and `Dial` return, and the calls they made. -/
structure DialResult where
  ws : Option Conn
  err : Option Error
  calls : List Call
deriving DecidableEq, Repr

/-- The function `DialConfig`. -/
def DialConfig (W : Collaborators) (config : Config) : DialResult :=
  let raw := DialConfigRaw W config
  match raw.err with
  | some err => ⟨none, some (.DialError config err), raw.calls⟩
  | none => ⟨some (NewClientConn raw.conn raw.rw config), none, raw.calls⟩

/-- The function `Dial`. -/
def Dial (W : Collaborators) (url_ protocol origin : String) : DialResult :=
  let made := NewConfig W url_ origin
  match made.err with
  | some err => ⟨none, some err, made.calls⟩
  | none =>
    let config : Config :=
      if protocol ≠ "" then { made.config with Protocol := [protocol] } else made.config
    let dialed := DialConfig W config
    ⟨dialed.ws, dialed.err, made.calls ++ dialed.calls⟩

/-! ## Test doubles -/

/-- A parser double: it knows two request URIs and rejects every other string. -/
def stubParseRequestURI (rawurl : String) : Except Error URL :=
  if rawurl = "ws://host/chat" then .ok ⟨"ws", "host", "/chat", ""⟩
  else if rawurl = "http://origin/" then .ok ⟨"http", "origin", "/", ""⟩
  else .error (.external "invalid URI for request")

/-- A printer double for the two URLs of `stubParseRequestURI`. -/
def stubURLString (u : URL) : String :=
  u.Scheme ++ "://" ++ u.Host ++ u.Path

/-- Collaborators whose dialer refuses every connection. -/
def refusing : Collaborators where
  ProtocolVersionHybi13 := 13
  ErrBadWebSocketLocation := .external "missing or bad WebSocket-Location"
  ErrBadWebSocketOrigin := .external "missing or bad WebSocket-Origin"
  ParseRequestURI := stubParseRequestURI
  URLString := stubURLString
  dialWithDialer := fun _ _ => (none, some (.external "connection refused"))
  hybiClientHandshake := fun _ _ _ => none

/-- Collaborators whose dialer connects and whose handshake fails. -/
def badHandshake : Collaborators :=
  { refusing with
    dialWithDialer := fun _ _ => (some ⟨3⟩, none)
    hybiClientHandshake := fun _ _ _ => some (.external "bad status") }

/-- A config with both URLs set and no dialer. -/
def sampleConfig : Config :=
  ⟨some ⟨"ws", "host", "/chat", ""⟩, some ⟨"http", "origin", "/", ""⟩, [], 13, some [], none⟩

/-- A config with no location. -/
def noLocation : Config := { sampleConfig with Location := none }

/-- A config with a location and no origin. -/
def noOrigin : Config := { sampleConfig with Origin := none }

/-- The location `ws://[::1]/`: a bracketed IPv6 literal and no port. -/
def loopback : URL := ⟨"ws", "[::1]", "/", ""⟩

/-! ## Index lemmas -/

theorem IndexByteString_ge (s : List Char) (c : Char) : -1 ≤ IndexByteString s c := by
  induction s with
  | nil => simp [IndexByteString]
  | cons x xs ih =>
    simp only [IndexByteString]
    split_ifs <;> omega

theorem IndexByteString_neg_iff (s : List Char) (c : Char) :
    IndexByteString s c < 0 ↔ c ∉ s := by
  induction s with
  | nil => simp [IndexByteString]
  | cons x xs ih =>
    have hge := IndexByteString_ge xs c
    simp only [IndexByteString, List.mem_cons, not_or]
    by_cases hx : x = c
    · subst hx
      simp
    · have hxc : ¬ c = x := fun h => hx h.symm
      simp only [hx, if_false, hxc, not_false_eq_true, true_and]
      split_ifs with hr
      · simp [ih.mp hr]
      · constructor
        · intro h
          omega
        · intro h
          exact absurd (ih.mpr h) hr

theorem LastIndexByteString_ge (s : List Char) (c : Char) : -1 ≤ LastIndexByteString s c := by
  induction s with
  | nil => simp [LastIndexByteString]
  | cons x xs ih =>
    simp only [LastIndexByteString]
    split_ifs <;> omega

theorem LastIndexByteString_neg_iff (s : List Char) (c : Char) :
    LastIndexByteString s c < 0 ↔ c ∉ s := by
  induction s with
  | nil => simp [LastIndexByteString]
  | cons x xs ih =>
    have hge := LastIndexByteString_ge xs c
    simp only [LastIndexByteString, List.mem_cons, not_or]
    by_cases hr : LastIndexByteString xs c < 0
    · have hxs := ih.mp hr
      by_cases hx : x = c
      · subst hx
        simp [hr]
      · have hxc : ¬ c = x := fun h => hx h.symm
        simp [hr, hx, hxc, hxs]
    · have hxs : ¬ c ∉ xs := fun h => hr (ih.mpr h)
      simp only [hr, if_false, hxs, and_false, iff_false]
      omega

theorem IndexByteString_append_cons (a b : List Char) (c : Char) (h : c ∉ a) :
    IndexByteString (a ++ c :: b) c = a.length := by
  induction a with
  | nil => simp [IndexByteString]
  | cons x xs ih =>
    have hx : ¬ x = c := fun e => h (by simp [e])
    have hxs : c ∉ xs := fun e => h (by simp [e])
    have e := ih hxs
    rw [List.cons_append, IndexByteString, if_neg hx]
    simp only [e, List.length_cons]
    split_ifs <;> push_cast <;> omega

theorem LastIndexByteString_append_cons (a b : List Char) (c : Char) (h : c ∉ b) :
    LastIndexByteString (a ++ c :: b) c = a.length := by
  induction a with
  | nil =>
    have hb := (LastIndexByteString_neg_iff b c).mpr h
    simp [LastIndexByteString, hb]
  | cons x xs ih =>
    rw [List.cons_append, LastIndexByteString]
    simp only [ih, List.length_cons]
    split_ifs <;> push_cast <;> omega

/-! ## `net.SplitHostPort` after `net.JoinHostPort` -/

theorem SplitHostPort_of_no_colon (hostport : String) (hc : ':' ∉ hostport.data) :
    SplitHostPort hostport = addrErr hostport missingPort := by
  have hi := (LastIndexByteString_neg_iff hostport.data ':').mpr hc
  simp only [SplitHostPort, hi, if_true]

theorem SplitHostPort_plain (hostport : String) (L P : List Char)
    (hd : hostport.data = L ++ ':' :: P)
    (hL : ':' ∉ L ∧ '[' ∉ L ∧ ']' ∉ L) (hP : ':' ∉ P ∧ '[' ∉ P ∧ ']' ∉ P) :
    SplitHostPort hostport = .ok (String.mk L, String.mk P) := by
  obtain ⟨hLc, hLo, hLe⟩ := hL
  obtain ⟨hPc, hPo, hPe⟩ := hP
  have hi : LastIndexByteString (L ++ ':' :: P) ':' = L.length :=
    LastIndexByteString_append_cons L P ':' hPc
  have hhead : ¬ (L ++ ':' :: P).head? = some '[' := by
    cases L with
    | nil => simp
    | cons x xs =>
      intro h
      simp only [List.cons_append, List.head?_cons, Option.some.injEq] at h
      exact hLo (by simp [h])
  have hhost : slice (L ++ ':' :: P) 0 L.length = L := by
    simp [slice]
  have hcol : ¬ IndexByteString L ':' ≥ 0 := by
    have := (IndexByteString_neg_iff L ':').mpr hLc
    omega
  have hopen : ¬ IndexByteString (sliceFrom (L ++ ':' :: P) 0) '[' ≥ 0 := by
    have := (IndexByteString_neg_iff (L ++ ':' :: P) '[').mpr (by simp [hLo, hPo])
    simp only [sliceFrom, Int.toNat_zero, List.drop_zero]
    omega
  have hclose : ¬ IndexByteString (sliceFrom (L ++ ':' :: P) 0) ']' ≥ 0 := by
    have := (IndexByteString_neg_iff (L ++ ':' :: P) ']').mpr (by simp [hLe, hPe])
    simp only [sliceFrom, Int.toNat_zero, List.drop_zero]
    omega
  have hport : sliceFrom (L ++ ':' :: P) ((L.length : Int) + 1) = P := by
    have : ((L.length : Int) + 1).toNat = L.length + 1 := by omega
    simp [sliceFrom, this]
  have hneg : ¬ (L.length : Int) < 0 := by omega
  simp only [SplitHostPort, splitHostPortTail, hd, hi, hneg, hhead, hhost, hcol, hopen, hclose,
    hport, if_false]

theorem SplitHostPort_bracketed (hostport : String) (L P : List Char)
    (hd : hostport.data = '[' :: (L ++ ']' :: ':' :: P))
    (hL : '[' ∉ L ∧ ']' ∉ L) (hP : ':' ∉ P ∧ '[' ∉ P ∧ ']' ∉ P) :
    SplitHostPort hostport = .ok (String.mk L, String.mk P) := by
  obtain ⟨hLo, hLe⟩ := hL
  obtain ⟨hPc, hPo, hPe⟩ := hP
  have hi : LastIndexByteString ('[' :: (L ++ ']' :: ':' :: P)) ':' = (L.length : Int) + 2 := by
    have h := LastIndexByteString_append_cons ('[' :: (L ++ [']'])) P ':' hPc
    simp only [List.cons_append, List.append_assoc, List.singleton_append, List.nil_append, List.length_nil, List.length_cons,
      List.length_append, List.length_singleton] at h
    rw [h]
    push_cast
    ring
  have hend : IndexByteString ('[' :: (L ++ ']' :: ':' :: P)) ']' = (L.length : Int) + 1 := by
    have h := IndexByteString_append_cons ('[' :: L) (':' :: P) ']' (by simp [hLe])
    simp only [List.cons_append, List.length_cons] at h
    rw [h]
    push_cast
    ring
  have hhead : ('[' :: (L ++ ']' :: ':' :: P)).head? = some '[' := rfl
  have hlen : ¬ (L.length : Int) + 2 = (('[' :: (L ++ ']' :: ':' :: P)).length : Int) := by
    simp only [List.length_cons, List.length_append]
    push_cast
    omega
  have hhost : slice ('[' :: (L ++ ']' :: ':' :: P)) 1 ((L.length : Int) + 1) = L := by
    have : ((L.length : Int) + 1).toNat = L.length + 1 := by omega
    simp [slice, this]
  have hopen : ¬ IndexByteString (sliceFrom ('[' :: (L ++ ']' :: ':' :: P)) 1) '[' ≥ 0 := by
    have := (IndexByteString_neg_iff (L ++ ']' :: ':' :: P) '[').mpr (by simp [hLo, hPo])
    simp only [sliceFrom, Int.toNat_one, List.drop_succ_cons, List.drop_zero]
    omega
  have hclose : ¬ IndexByteString (sliceFrom ('[' :: (L ++ ']' :: ':' :: P))
      ((L.length : Int) + 2)) ']' ≥ 0 := by
    have hn : ((L.length : Int) + 2).toNat = L.length + 1 + 1 := by omega
    have hdrop : sliceFrom ('[' :: (L ++ ']' :: ':' :: P)) ((L.length : Int) + 2)
        = ':' :: P := by
      simp [sliceFrom, hn]
    have := (IndexByteString_neg_iff (':' :: P) ']').mpr (by simp [hPe])
    rw [hdrop]
    omega
  have hport : sliceFrom ('[' :: (L ++ ']' :: ':' :: P)) ((L.length : Int) + 2 + 1) = P := by
    have hn : ((L.length : Int) + 2 + 1).toNat = L.length + 1 + 1 + 1 := by omega
    simp [sliceFrom, hn]
  have hneg : ¬ (L.length : Int) + 2 < 0 := by omega
  have hneg1 : ¬ (L.length : Int) + 1 < 0 := by omega
  have heq : (L.length : Int) + 1 + 1 = (L.length : Int) + 2 := by ring
  simp only [SplitHostPort, splitHostPortTail, hd, hi, hend, hneg, hneg1, hhead, hlen, heq,
    hhost, hopen, hclose, hport, if_false, if_true]

theorem SplitHostPort_JoinHostPort (host port : String)
    (hh : '[' ∉ host.data ∧ ']' ∉ host.data)
    (hp : ':' ∉ port.data ∧ '[' ∉ port.data ∧ ']' ∉ port.data) :
    SplitHostPort (JoinHostPort host port) = .ok (host, port) := by
  unfold JoinHostPort
  by_cases hc : ':' ∈ host.data
  · have hidx : IndexByteString host.data ':' ≥ 0 := by
      have := IndexByteString_neg_iff host.data ':'
      by_contra hneg
      exact (this.mp (by omega)) hc
    rw [if_pos hidx]
    exact SplitHostPort_bracketed _ host.data port.data
      (by simp [String.data_append]) hh hp
  · have hidx : ¬ IndexByteString host.data ':' ≥ 0 := by
      have := (IndexByteString_neg_iff host.data ':').mpr hc
      omega
    rw [if_neg hidx]
    exact SplitHostPort_plain _ host.data port.data
      (by simp [String.data_append]) ⟨hc, hh.1, hh.2⟩ hp

theorem portMap_port (scheme port : String) (h : portMap scheme = some port) :
    ':' ∉ port.data ∧ '[' ∉ port.data ∧ ']' ∉ port.data := by
  unfold portMap at h
  split_ifs at h
  · cases h
    decide
  · cases h
    decide

/-! ## Authority resolution -/

/-- The default port is appended as written to a Host without a colon. -/
theorem parseAuthority_default_port (location : URL) (port : String)
    (hp : portMap location.Scheme = some port) (hc : ':' ∉ location.Host.data) :
    parseAuthority location = location.Host ++ ":" ++ port := by
  have hidx : ¬ IndexByteString location.Host.data ':' ≥ 0 := by
    have := (IndexByteString_neg_iff location.Host.data ':').mpr hc
    omega
  simp only [parseAuthority, hp, SplitHostPort_of_no_colon _ hc, addrErr, JoinHostPort,
    if_neg hidx]

/-- The resolved authority of a Host without brackets is a fixed point of the
resolution. -/
theorem parseAuthority_fixed_point_of_no_bracket (location : URL)
    (hh : '[' ∉ location.Host.data ∧ ']' ∉ location.Host.data) :
    parseAuthority { location with Host := parseAuthority location } =
      parseAuthority location := by
  cases hp : portMap location.Scheme with
  | none => simp only [parseAuthority, hp]
  | some port =>
    cases hs : SplitHostPort location.Host with
    | ok hostport => simp only [parseAuthority, hp, hs]
    | error e =>
      have hjoin := SplitHostPort_JoinHostPort location.Host port hh (portMap_port _ _ hp)
      simp only [parseAuthority, hp, hs, hjoin]

/-- C2: `parseAuthority` returns the Host unchanged when `net.SplitHostPort`
succeeds on it, whatever the scheme, and when the scheme is neither `ws` nor
`wss`. -/
theorem parseAuthority_unchanged (location : URL)
    (h : (∃ hp, SplitHostPort location.Host = .ok hp) ∨
      (location.Scheme ≠ "ws" ∧ location.Scheme ≠ "wss")) :
    parseAuthority location = location.Host := by
  unfold parseAuthority
  rcases h with ⟨hp, hok⟩ | ⟨hws, hwss⟩
  · rw [hok]
    cases portMap location.Scheme <;> rfl
  · have hnone : portMap location.Scheme = none := by
      unfold portMap
      rw [if_neg hws, if_neg hwss]
    rw [hnone]

theorem parseAuthority_unchanged_witness :
    parseAuthority ⟨"ws", "host:9999", "/", ""⟩ = "host:9999" ∧
      parseAuthority ⟨"custom", "host", "/", ""⟩ = "host" :=
  ⟨parseAuthority_unchanged ⟨"ws", "host:9999", "/", ""⟩ (Or.inl ⟨("host", "9999"), rfl⟩),
    parseAuthority_unchanged ⟨"custom", "host", "/", ""⟩ (Or.inr ⟨by decide, by decide⟩)⟩

/-- C1, at the location `ws://[::1]/`: the Host `[::1]` has no port, and the
authority is `[[::1]]:80` (`[[::1]]:443` for `wss`), not the Host followed by
`:80`. -/
theorem parseAuthority_bracketed_literal :
    (∃ e, SplitHostPort loopback.Host = .error e) ∧
      parseAuthority loopback = "[[::1]]:80" ∧
      parseAuthority loopback ≠ loopback.Host ++ ":80" ∧
      parseAuthority { loopback with Scheme := "wss" } = "[[::1]]:443" ∧
      parseAuthority { loopback with Scheme := "wss" } ≠ loopback.Host ++ ":443" :=
  ⟨⟨⟨missingPort, "[::1]"⟩, rfl⟩, by decide, by decide, by decide, by decide⟩

/-- C10, at the location `ws://[::1]/`: the resolved authority `[[::1]]:80` does
not split into host and port, and resolving it again appends a second port. -/
theorem parseAuthority_not_fixed_point :
    (∃ e, SplitHostPort (parseAuthority loopback) = .error e) ∧
      parseAuthority { loopback with Host := parseAuthority loopback } = "[[[::1]]:80]:80" ∧
      parseAuthority { loopback with Host := parseAuthority loopback } ≠ parseAuthority loopback :=
  ⟨⟨⟨missingPort, "[[::1]]:80"⟩, rfl⟩, by decide, by decide⟩

/-! ## Validation -/

/-- C3: with a nil Location, `DialConfigRaw` returns a nil connection, nil
buffers and a `DialError` of the config with `ErrBadWebSocketLocation`, and calls
neither the dialer nor the handshake. -/
theorem DialConfigRaw_nil_location (W : Collaborators) (config : Config)
    (h : config.Location = none) :
    DialConfigRaw W config =
      ⟨none, none, some (.DialError config W.ErrBadWebSocketLocation), []⟩ := by
  unfold DialConfigRaw
  rw [h]

theorem DialConfigRaw_nil_location_witness :
    noLocation.Location = none ∧
      DialConfigRaw badHandshake noLocation =
        ⟨none, none, some (.DialError noLocation badHandshake.ErrBadWebSocketLocation), []⟩ :=
  ⟨rfl, DialConfigRaw_nil_location badHandshake noLocation rfl⟩

/-- C4: with a Location and a nil Origin, `DialConfigRaw` returns a nil
connection, nil buffers and a `DialError` of the config with
`ErrBadWebSocketOrigin`, and calls neither the dialer nor the handshake. -/
theorem DialConfigRaw_nil_origin (W : Collaborators) (config : Config) (location : URL)
    (hl : config.Location = some location) (ho : config.Origin = none) :
    DialConfigRaw W config =
      ⟨none, none, some (.DialError config W.ErrBadWebSocketOrigin), []⟩ := by
  unfold DialConfigRaw
  rw [hl, ho]

theorem DialConfigRaw_nil_origin_witness :
    DialConfigRaw badHandshake noOrigin =
      ⟨none, none, some (.DialError noOrigin badHandshake.ErrBadWebSocketOrigin), []⟩ :=
  DialConfigRaw_nil_origin badHandshake noOrigin ⟨"ws", "host", "/chat", ""⟩ rfl rfl

/-! ## Rendering of `DialError` -/

/-- C7: for a `DialError` whose config has a Location, `Error` is exactly
`websocket.Dial `, the Location as a string, `: ` and the text of `Err`, in this
order and with nothing else; it is defined exactly when the text of `Err` is. -/
theorem DialError_Error_eq (W : Collaborators) (config : Config) (Err : Error)
    (location : URL) (h : config.Location = some location) :
    Error.Error W (.DialError config Err) =
        (Error.Error W Err).map
          (fun cause => "websocket.Dial " ++ W.URLString location ++ ": " ++ cause) ∧
      ∀ cause, Error.Error W Err = .ok cause →
        Error.Error W (.DialError config Err) =
          .ok ("websocket.Dial " ++ W.URLString location ++ ": " ++ cause) := by
  have hmap : Error.Error W (.DialError config Err) =
      (Error.Error W Err).map
        (fun cause => "websocket.Dial " ++ W.URLString location ++ ": " ++ cause) := by
    rw [Error.Error, h]
    simp only [URL.String]
    cases Error.Error W Err <;> rfl
  refine ⟨hmap, ?_⟩
  intro cause hcause
  rw [hmap, hcause]
  rfl

theorem DialError_Error_eq_witness :
    Error.Error refusing (.DialError sampleConfig (.external "connection refused")) =
      .ok "websocket.Dial ws://host/chat: connection refused" :=
  (DialError_Error_eq refusing sampleConfig (.external "connection refused")
    ⟨"ws", "host", "/chat", ""⟩ rfl).2 "connection refused" rfl

/-! ## Config-level dial -/

/-- C5: with a Location and an Origin, when the selected dialer fails with `e`,
or it succeeds and the handshake fails with `e`, `DialConfig` returns a nil
connection and a `DialError` of the config whose `Err` is `e` itself; whenever
`e` has a text, the message of that `DialError` is defined and contains the
Location as a string. -/
theorem DialConfig_preserves_cause (W : Collaborators) (config : Config)
    (location origin : URL) (e : Error)
    (hl : config.Location = some location) (ho : config.Origin = some origin)
    (hfail : (W.dialWithDialer (selectDialer config) config).2 = some e ∨
      ((W.dialWithDialer (selectDialer config) config).2 = none ∧
        W.hybiClientHandshake config
          (NewReader (W.dialWithDialer (selectDialer config) config).1)
          (NewWriter (W.dialWithDialer (selectDialer config) config).1) = some e)) :
    (DialConfig W config).ws = none ∧
      (DialConfig W config).err = some (.DialError config e) ∧
      ∀ cause, Error.Error W e = .ok cause →
        ∃ message, Error.Error W (.DialError config e) = .ok message ∧
          (W.URLString location).data <:+: message.data := by
  have hraw : (DialConfigRaw W config).err = some e := by
    rcases hdial : W.dialWithDialer (selectDialer config) config with ⟨conn, derr⟩
    rw [hdial] at hfail
    rcases hfail with hd | ⟨hd, hh⟩
    · simp only at hd
      subst hd
      simp only [DialConfigRaw, hl, ho, hdial]
    · simp only at hd hh
      subst hd
      simp only [DialConfigRaw, hl, ho, hdial, hh]
  have hdc : DialConfig W config = ⟨none, some (.DialError config e), (DialConfigRaw W config).calls⟩ := by
    unfold DialConfig
    simp only [hraw]
  refine ⟨by rw [hdc], by rw [hdc], ?_⟩
  intro cause hcause
  refine ⟨"websocket.Dial " ++ W.URLString location ++ ": " ++ cause, ?_, ?_⟩
  · rw [Error.Error, hl]
    simp only [URL.String, hcause]
  · refine ⟨"websocket.Dial ".data, (": " ++ cause).data, ?_⟩
    simp [String.data_append, List.append_assoc]

theorem DialConfig_preserves_cause_witness :
    ((DialConfig refusing sampleConfig).ws = none ∧
      (DialConfig refusing sampleConfig).err =
        some (.DialError sampleConfig (.external "connection refused"))) ∧
    ((DialConfig badHandshake sampleConfig).ws = none ∧
      (DialConfig badHandshake sampleConfig).err =
        some (.DialError sampleConfig (.external "bad status"))) :=
  ⟨⟨(DialConfig_preserves_cause refusing sampleConfig ⟨"ws", "host", "/chat", ""⟩
        ⟨"http", "origin", "/", ""⟩ (.external "connection refused") rfl rfl (Or.inl rfl)).1,
      (DialConfig_preserves_cause refusing sampleConfig ⟨"ws", "host", "/chat", ""⟩
        ⟨"http", "origin", "/", ""⟩ (.external "connection refused") rfl rfl (Or.inl rfl)).2.1⟩,
    ⟨(DialConfig_preserves_cause badHandshake sampleConfig ⟨"ws", "host", "/chat", ""⟩
        ⟨"http", "origin", "/", ""⟩ (.external "bad status") rfl rfl (Or.inr ⟨rfl, rfl⟩)).1,
      (DialConfig_preserves_cause badHandshake sampleConfig ⟨"ws", "host", "/chat", ""⟩
        ⟨"http", "origin", "/", ""⟩ (.external "bad status") rfl rfl (Or.inr ⟨rfl, rfl⟩)).2.1⟩⟩

/-- Every error of `DialConfig` is a `DialError` of the given config, and its
cause is the error of `DialConfigRaw`. -/
theorem DialConfig_err_is_DialError (W : Collaborators) (config : Config) (e : Error)
    (h : (DialConfig W config).err = some e) :
    ∃ cause, (DialConfigRaw W config).err = some cause ∧ e = .DialError config cause := by
  cases hraw : (DialConfigRaw W config).err with
  | none =>
    simp only [DialConfig, hraw] at h
    cases h
  | some cause =>
    simp only [DialConfig, hraw, Option.some.injEq] at h
    exact ⟨cause, rfl, h.symm⟩

/-- C6, at a config with a nil Location: `DialConfig` fails with a `DialError`
of the config that wraps the `DialError` of `DialConfigRaw`, and `Error` on it
dereferences the nil Location instead of returning a message. -/
theorem DialConfig_nil_location_unrenderable (W : Collaborators) (config : Config) :
    (DialConfig W { config with Location := none }).err =
        some (.DialError { config with Location := none }
          (.DialError { config with Location := none } W.ErrBadWebSocketLocation)) ∧
      Error.Error W (.DialError { config with Location := none }
          (.DialError { config with Location := none } W.ErrBadWebSocketLocation)) =
        .error .nilDereference :=
  ⟨rfl, rfl⟩

/-! ## Config construction -/

/-- C8: when both strings parse, `NewConfig` returns a nil error and a config
with the two parsed URLs, the version `ProtocolVersionHybi13` and an empty,
non-nil header map. -/
theorem NewConfig_ok (W : Collaborators) (server origin : String) (location org : URL)
    (hs : W.ParseRequestURI server = .ok location)
    (ho : W.ParseRequestURI origin = .ok org) :
    (NewConfig W server origin).err = none ∧
      (NewConfig W server origin).config.Location = some location ∧
      (NewConfig W server origin).config.Origin = some org ∧
      (NewConfig W server origin).config.Version = W.ProtocolVersionHybi13 ∧
      (NewConfig W server origin).config.Header = some [] := by
  simp only [NewConfig, hs, ho, and_self]

theorem NewConfig_ok_witness :
    (NewConfig refusing "ws://host/chat" "http://origin/").err = none ∧
      (NewConfig refusing "ws://host/chat" "http://origin/").config.Location =
        some ⟨"ws", "host", "/chat", ""⟩ ∧
      (NewConfig refusing "ws://host/chat" "http://origin/").config.Origin =
        some ⟨"http", "origin", "/", ""⟩ ∧
      (NewConfig refusing "ws://host/chat" "http://origin/").config.Version = 13 ∧
      (NewConfig refusing "ws://host/chat" "http://origin/").config.Header = some [] :=
  NewConfig_ok refusing "ws://host/chat" "http://origin/" ⟨"ws", "host", "/chat", ""⟩
    ⟨"http", "origin", "/", ""⟩ rfl rfl

/-- C9: when the server or the origin fails to parse, `NewConfig` returns the
error of the first failing parse, the server first and the origin not parsed
when the server fails; the config returned with it has a nil Location or a nil
Origin, and `DialConfigRaw` rejects it at validation without calling the dialer
or the handshake. -/
theorem NewConfig_fail (W : Collaborators) (server origin : String)
    (h : (∃ e, W.ParseRequestURI server = .error e) ∨
      (∃ e, W.ParseRequestURI origin = .error e)) :
    ∃ e, (NewConfig W server origin).err = some e ∧
      ((W.ParseRequestURI server = .error e ∧
          (NewConfig W server origin).calls = [.ParseRequestURI server]) ∨
        ((∃ location, W.ParseRequestURI server = .ok location) ∧
          W.ParseRequestURI origin = .error e ∧
          (NewConfig W server origin).calls =
            [.ParseRequestURI server, .ParseRequestURI origin])) ∧
      ((NewConfig W server origin).config.Location = none ∨
        (NewConfig W server origin).config.Origin = none) ∧
      ∃ sentinel, (sentinel = W.ErrBadWebSocketLocation ∨ sentinel = W.ErrBadWebSocketOrigin) ∧
        DialConfigRaw W (NewConfig W server origin).config =
          ⟨none, none, some (.DialError (NewConfig W server origin).config sentinel), []⟩ := by
  rcases hs : W.ParseRequestURI server with es | location
  · refine ⟨es, ?_, Or.inl ⟨rfl, ?_⟩, Or.inl ?_, W.ErrBadWebSocketLocation, Or.inl rfl, ?_⟩
    · simp only [NewConfig, hs]
    · simp only [NewConfig, hs]
    · simp only [NewConfig, hs]
    · simp only [NewConfig, hs, DialConfigRaw]
  · rcases ho : W.ParseRequestURI origin with eo | org
    · refine ⟨eo, ?_, Or.inr ⟨⟨location, rfl⟩, rfl, ?_⟩, Or.inr ?_,
        W.ErrBadWebSocketOrigin, Or.inr rfl, ?_⟩
      · simp only [NewConfig, hs, ho]
      · simp only [NewConfig, hs, ho]
      · simp only [NewConfig, hs, ho]
      · simp only [NewConfig, hs, ho, DialConfigRaw]
    · rw [hs, ho] at h
      rcases h with ⟨e, he⟩ | ⟨e, he⟩ <;> cases he

theorem NewConfig_fail_witness :
    ∃ e, (NewConfig refusing "host/chat" "http://origin/").err = some e ∧
      ((refusing.ParseRequestURI "host/chat" = .error e ∧
          (NewConfig refusing "host/chat" "http://origin/").calls =
            [.ParseRequestURI "host/chat"]) ∨
        ((∃ location, refusing.ParseRequestURI "host/chat" = .ok location) ∧
          refusing.ParseRequestURI "http://origin/" = .error e ∧
          (NewConfig refusing "host/chat" "http://origin/").calls =
            [.ParseRequestURI "host/chat", .ParseRequestURI "http://origin/"])) ∧
      ((NewConfig refusing "host/chat" "http://origin/").config.Location = none ∨
        (NewConfig refusing "host/chat" "http://origin/").config.Origin = none) ∧
      ∃ sentinel, (sentinel = refusing.ErrBadWebSocketLocation ∨
          sentinel = refusing.ErrBadWebSocketOrigin) ∧
        DialConfigRaw refusing (NewConfig refusing "host/chat" "http://origin/").config =
          ⟨none, none,
            some (.DialError (NewConfig refusing "host/chat" "http://origin/").config sentinel),
            []⟩ :=
  NewConfig_fail refusing "host/chat" "http://origin/"
    (Or.inl ⟨.external "invalid URI for request", rfl⟩)

end Websocket
